import Mathlib

/-!
Verification of the resource-claiming subsystem of provider-utils.

The development shallowly embeds the Go sources:
  * `claimutils/gpu/gpu.go`   — the GPU device-pool claim plugin;
  * `claimutils/claim/claimer.go` — the claimer actor (two-phase claim with
    rollback, lifecycle state, queue draining on shutdown).

Modelling conventions:
  * a Go `map[pci.Address]ClaimStatus` is an association list whose entry
    order stands for one (arbitrary) iteration order of the map; claims are
    quantified over all lists, hence over all iteration orders;
  * `resource.Quantity.Value()` (an int64) is an `Int`;
  * fallible Go functions return `Except`;
  * the opaque `v1alpha1.ResourceName` string key of the claimer is an
    arbitrary type with decidable equality.
-/

/-- `pci.Address` from `claimutils/pci`: domain/bus/slot/function coordinates. -/
structure Address where
  domain : Nat
  bus : Nat
  slot : Nat
  function : Nat
deriving DecidableEq, Repr

/-- `gpu.ClaimStatus` is a `bool` in the source. -/
abbrev ClaimStatus := Bool

/-- `gpu.ClaimStatusFree = true`. -/
def ClaimStatusFree : ClaimStatus := true

/-- `gpu.ClaimStatusClaimed = false`. -/
def ClaimStatusClaimed : ClaimStatus := false

@[simp] theorem claimStatusFree_eq : ClaimStatusFree = true := rfl

@[simp] theorem claimStatusClaimed_eq : ClaimStatusClaimed = false := rfl

/-- The `devices map[pci.Address]ClaimStatus` field of `gpuClaimPlugin`,
as an association list (entry order = one map iteration order). -/
abbrev GpuState := List (Address × ClaimStatus)

/-- Reading `g.devices[a]` (`none` when the key is absent). -/
def lookupDev : GpuState → Address → Option ClaimStatus
  | [], _ => none
  | p :: rest, a => if p.1 = a then some p.2 else lookupDev rest a

/-- The key list of the device map. -/
def keysOf (g : GpuState) : List Address := g.map Prod.fst

/-- The free-device count computed by the loop in `gpuClaimPlugin.canClaim`. -/
def freeCount (g : GpuState) : Nat := g.countP (fun p => p.2 == ClaimStatusFree)

/-- The number of devices currently Claimed. -/
def claimedCount (g : GpuState) : Nat := g.countP (fun p => p.2 == ClaimStatusClaimed)

/-- Errors of package `claimutils/claim` used by the gpu plugin
(`ErrInsufficientResources`, `ErrInvalidResourceClaim`). -/
inductive ClaimError where
  | insufficientResources
  | invalidResourceClaim
deriving DecidableEq, Repr

/-- A `claim.ResourceClaim` as seen by the gpu plugin: either a value that
satisfies the plugin's `gpu.Claim` capability (wrapping PCI addresses, as
built by `gpuClaimPlugin.Claim`), or a value that fails the type assertion
in `gpuClaimPlugin.Release` (wrong variant, or nil). -/
inductive ResourceClaim where
  | gpu (devices : List Address)
  | invalid
deriving DecidableEq, Repr

namespace gpuPlugin

/-- `gpuClaimPlugin.canClaim`: counts Free devices and compares
`free >= requested` (both int64 in the source). -/
def canClaim (g : GpuState) (quantity : Int) : Bool :=
  decide (quantity ≤ (freeCount g : Int))

/-- The selection loop of `gpuClaimPlugin.Claim`: walks the device map in
iteration order, stopping once `len(gClaim.devices) == requested`, and marks
each Free device it visits as Claimed while recording its address.  The
`Nat` argument is the number of devices selected so far. -/
def claimLoop (requested : Int) : GpuState → Nat → List Address × GpuState
  | [], _ => ([], [])
  | (a, st) :: rest, k =>
    if (k : Int) = requested then ([], (a, st) :: rest)
    else if st = ClaimStatusFree then
      let r := claimLoop requested rest (k + 1)
      (a :: r.1, (a, ClaimStatusClaimed) :: r.2)
    else
      let r := claimLoop requested rest k
      (r.1, (a, st) :: r.2)

/-- `gpuClaimPlugin.Claim`: rejects with `ErrInsufficientResources` when
`canClaim` fails, otherwise runs the selection loop and returns the new
device map together with a `gpuClaim` wrapping the selected addresses. -/
def Claim (g : GpuState) (quantity : Int) : Except ClaimError (ResourceClaim × GpuState) :=
  if canClaim g quantity = false then
    .error .insufficientResources
  else
    let r := claimLoop quantity g 0
    .ok (.gpu r.1, r.2)

/-- One iteration of the release loop in `gpuClaimPlugin.Release`: a device
address not present in the map is skipped, a present one is set Free. -/
def releaseAddr (g : GpuState) (a : Address) : GpuState :=
  if (lookupDev g a).isSome then
    g.map (fun p => if p.1 = a then (p.1, ClaimStatusFree) else p)
  else
    g

/-- `gpuClaimPlugin.Release`: fails the type assertion with
`ErrInvalidResourceClaim` for a claim of the wrong variant (or nil);
otherwise releases every address of the claim in order. -/
def Release (g : GpuState) (resourceClaim : ResourceClaim) : Except ClaimError GpuState :=
  match resourceClaim with
  | .gpu addrs => .ok (addrs.foldl releaseAddr g)
  | .invalid => .error .invalidResourceClaim

/-- Writing `g.devices[a] = s` with Go map semantics: overwrite the entry
when the key exists, append it otherwise. -/
def mapSet (g : GpuState) (a : Address) (s : ClaimStatus) : GpuState :=
  if (lookupDev g a).isSome then
    g.map (fun p => if p.1 = a then (p.1, s) else p)
  else
    g ++ [(a, s)]

/-- `gpuClaimPlugin.Init` after a successful `pciReader.Read()` returning
`discovered`: every discovered address is stored Free, then every
pre-claimed address that was discovered is set Claimed (undiscovered
pre-claimed addresses are skipped). -/
def Init (discovered preClaimed : List Address) : GpuState :=
  let g1 := discovered.foldl (fun g a => mapSet g a ClaimStatusFree) []
  preClaimed.foldl
    (fun g a => if (lookupDev g a).isSome then mapSet g a ClaimStatusClaimed else g) g1

end gpuPlugin

/-! ## Trace model for the device-pool invariant

Ghost bookkeeping for the outstanding claims handed out by a sequence of
`Claim`/`Release` operations on one gpu plugin. -/

/-- One caller-visible operation on a gpu plugin. -/
inductive GpuOp where
  | claimOp (quantity : Int)
  | releaseOp (rc : ResourceClaim)
deriving DecidableEq, Repr

/-- One operation applied to the device map, together with ghost tracking of
the outstanding claims: a successful `Claim` adds the returned address list,
a successful `Release` removes the released addresses from every outstanding
claim; failed operations leave the map untouched (as in the source). -/
def stepOp (s : GpuState × List (List Address)) (op : GpuOp) : GpuState × List (List Address) :=
  match op with
  | .claimOp q =>
    match gpuPlugin.Claim s.1 q with
    | .ok (.gpu sel, g') => (g', s.2 ++ [sel])
    | _ => s
  | .releaseOp rc =>
    match rc, gpuPlugin.Release s.1 rc with
    | .gpu addrs, .ok g' => (g', s.2.map (fun c => c.filter (fun a => decide (a ∉ addrs))))
    | _, _ => s

/-- A sequence of operations applied in order. -/
def runOps (s : GpuState × List (List Address)) (ops : List GpuOp) : GpuState × List (List Address) :=
  ops.foldl stepOp s

/-- The device-pool invariant of spec §3: fixed key set, outstanding claims
pairwise disjoint and duplicate-free, every outstanding address Claimed. -/
def poolInv (keys0 : List Address) (g : GpuState) (outs : List (List Address)) : Prop :=
  keysOf g = keys0 ∧
  List.Pairwise (fun c d => ∀ a ∈ c, a ∉ d) outs ∧
  (∀ c ∈ outs, c.Nodup) ∧
  (∀ c ∈ outs, ∀ a ∈ c, lookupDev g a = some ClaimStatusClaimed)

/-! ## The claimer (claimutils/claim/claimer.go)

The claimer is generic over its plugins: `ν` is the resource-name key type,
`σ` a plugin's state, `ρ` its claim handle type, `ε` its error type. -/

/-- The `claim.Plugin` interface (plugin.go), with the state threaded
explicitly: Go methods mutating the receiver become state-passing
functions. -/
structure Plugin (σ ρ ε : Type) where
  canClaim : σ → Int → Bool
  claim : σ → Int → Except ε (ρ × σ)
  release : σ → ρ → Except ε σ

/-- Pointwise update of the per-plugin state assignment. -/
def updateState {ν σ : Type} [DecidableEq ν] (states : ν → σ) (n : ν) (s : σ) : ν → σ :=
  fun m => if m = n then s else states m

/-- The error returned by `claimer.claim`: either the aggregated
`ErrInsufficientResources` (carrying the resources that were short) or a
plugin's own claim error, passed through verbatim. -/
inductive ClaimerError (ν ε : Type) where
  | insufficientResources (short : List ν)
  | pluginError (e : ε)
deriving DecidableEq, Repr

/-- `claimer.release`: releases every entry of the claims map, collecting
(not short-circuiting on) per-entry errors, and returns the error list
together with the final plugin states. -/
def releaseAll {ν σ ρ ε : Type} [DecidableEq ν] (plugins : ν → Plugin σ ρ ε) :
    List (ν × ρ) → (ν → σ) → List ε × (ν → σ)
  | [], states => ([], states)
  | (name, rc) :: rest, states =>
    match (plugins name).release (states name) rc with
    | .ok s' => releaseAll plugins rest (updateState states name s')
    | .error e =>
      let r := releaseAll plugins rest states
      (e :: r.1, r.2)

/-- The second loop of `claimer.claim`: calls `Claim` on each plugin in
turn, accumulating the claims obtained so far; on the first plugin error it
releases the accumulated claims (the release errors are only logged — they
do not reach the result) and returns `(nil, claimErr)`. -/
def claimPhase2 {ν σ ρ ε : Type} [DecidableEq ν] (plugins : ν → Plugin σ ρ ε) :
    List (ν × Int) → (ν → σ) → List (ν × ρ) →
    (Option (List (ν × ρ)) × Option (ClaimerError ν ε)) × (ν → σ)
  | [], states, claims => ((some claims, none), states)
  | (name, qty) :: rest, states, claims =>
    match (plugins name).claim (states name) qty with
    | .error claimErr =>
      let r := releaseAll plugins claims states
      ((none, some (.pluginError claimErr)), r.2)
    | .ok (rc, s') =>
      claimPhase2 plugins rest (updateState states name s') (claims ++ [(name, rc)])

/-- `claimer.claim`: first asks every named plugin's `CanClaim`; if any
resource is short the whole request fails with the aggregated
`ErrInsufficientResources` and no state changes; otherwise the claim loop
(`claimPhase2`) runs.  The result mirrors Go's `(Claims, error)` pair. -/
def claimerClaim {ν σ ρ ε : Type} [DecidableEq ν] (plugins : ν → Plugin σ ρ ε)
    (states : ν → σ) (resources : List (ν × Int)) :
    (Option (List (ν × ρ)) × Option (ClaimerError ν ε)) × (ν → σ) :=
  let insufficient := resources.filter (fun r => !(plugins r.1).canClaim (states r.1) r.2)
  if insufficient.length > 0 then
    ((none, some (.insufficientResources (insufficient.map Prod.fst))), states)
  else
    claimPhase2 plugins resources states []

/-! ## Claimer lifecycle (start / shutdown / WaitUntilStarted) -/

/-- The observable lifecycle flags of a claimer: whether the `started`
channel has been closed (the command loop began) and whether the `shutdown`
channel has been closed (the `Start` context was cancelled). -/
structure ClaimerLife where
  started : Bool
  shutdown : Bool
deriving DecidableEq, Repr

/-- Lifecycle-level errors of the claimer front end
(`ErrNotStarted`) and the caller-context / start-context cancellation
error (`ctx.Err()`). -/
inductive LifecycleError where
  | notStarted
  | ctxCancelled
deriving DecidableEq, Repr

/-- `claimer.ensureRunning`: `ErrNotStarted` unless the started channel is
closed and the shutdown channel is not. -/
def ensureRunning (l : ClaimerLife) : Option LifecycleError :=
  if l.started = false then some .notStarted
  else if l.shutdown = true then some .notStarted
  else none

/-- Outcome of the front-end of `claimer.Claim` / `claimer.Release` before
the request reaches the command loop. -/
inductive FrontOutcome where
  | missingPlugins
  | rejected (e : LifecycleError)
  | enqueued
deriving DecidableEq, Repr

/-- The shared front-end of `claimer.Claim` and `claimer.Release`: the
plugin-coverage check, then `ensureRunning`, then the enqueue select (whose
shutdown case rejects with `ErrNotStarted`). -/
def requestFrontEnd (l : ClaimerLife) (allPluginsPresent : Bool) : FrontOutcome :=
  if allPluginsPresent = false then .missingPlugins
  else
    match ensureRunning l with
    | some e => .rejected e
    | none => if l.shutdown = true then .rejected .notStarted else .enqueued

/-- The deferred drain loop of `claimer.start`: every claim request still
queued when the loop exits is answered with `claimRes{claims: nil, err:
ctx.Err()}`. -/
def drainClaimQueue {α γ : Type} (queued : List α) : List (Option γ × Option LifecycleError) :=
  queued.map (fun _ => (none, some .ctxCancelled))

/-- The deferred drain loop of `claimer.start` for release requests: each
queued request is answered with `ctx.Err()`. -/
def drainReleaseQueue {α : Type} (queued : List α) : List (Option LifecycleError) :=
  queued.map (fun _ => some .ctxCancelled)

/-- Possible results of one `WaitUntilStarted` call. -/
inductive WaitOutcome where
  | ok
  | ctxErr
  | notStartedErr
deriving DecidableEq, Repr

/-- The two-case select of `claimer.WaitUntilStarted` as a relation of
possible outcomes: it can return nil when the started channel is closed and
the caller-context error when that context is done (Go picks among ready
cases nondeterministically); it blocks when neither is ready. -/
def WaitUntilStartedRel (l : ClaimerLife) (ctxDone : Bool) (r : WaitOutcome) : Prop :=
  (l.started = true ∧ r = .ok) ∨ (ctxDone = true ∧ r = .ctxErr)

/-! ## Basic lemmas about the device map -/

@[simp] theorem keysOf_nil : keysOf [] = [] := rfl

@[simp] theorem keysOf_cons (p : Address × ClaimStatus) (g : GpuState) :
    keysOf (p :: g) = p.1 :: keysOf g := rfl

@[simp] theorem lookupDev_nil (a : Address) : lookupDev [] a = none := rfl

theorem lookupDev_cons (p : Address × ClaimStatus) (g : GpuState) (a : Address) :
    lookupDev (p :: g) a = if p.1 = a then some p.2 else lookupDev g a := rfl

theorem lookupDev_eq_none (g : GpuState) (a : Address) :
    lookupDev g a = none ↔ a ∉ keysOf g := by
  induction g with
  | nil => simp
  | cons p rest ih =>
    rw [lookupDev_cons]
    by_cases h : p.1 = a
    · simp [h]
    · rw [if_neg h, ih]
      constructor
      · intro hna
        simp only [keysOf_cons, List.mem_cons, not_or]
        exact ⟨fun hc => h hc.symm, hna⟩
      · intro hna
        simp only [keysOf_cons, List.mem_cons, not_or] at hna
        exact hna.2

theorem lookupDev_isSome (g : GpuState) (a : Address) :
    (lookupDev g a).isSome = true ↔ a ∈ keysOf g := by
  cases hl : lookupDev g a with
  | none =>
    simp only [Option.isSome_none, Bool.false_eq_true, false_iff]
    exact (lookupDev_eq_none g a).mp hl
  | some v =>
    simp only [Option.isSome_some, true_iff]
    by_contra hmem
    rw [← lookupDev_eq_none g a] at hmem
    simp [hl] at hmem

@[simp] theorem freeCount_nil : freeCount [] = 0 := rfl

theorem freeCount_cons (p : Address × ClaimStatus) (g : GpuState) :
    freeCount (p :: g) = freeCount g + (if p.2 = ClaimStatusFree then 1 else 0) := by
  simp [freeCount, List.countP_cons]

@[simp] theorem freeCount_cons_true (a : Address) (g : GpuState) :
    freeCount ((a, true) :: g) = freeCount g + 1 := by
  simp [freeCount_cons]

@[simp] theorem freeCount_cons_false (a : Address) (g : GpuState) :
    freeCount ((a, false) :: g) = freeCount g := by
  simp [freeCount_cons]

/-- Two device maps with the same duplicate-free key order and the same
lookups are equal. -/
theorem gpuState_ext : ∀ (g h : GpuState), keysOf g = keysOf h → (keysOf g).Nodup →
    (∀ a, lookupDev g a = lookupDev h a) → g = h := by
  intro g
  induction g with
  | nil =>
    intro h hk _ _
    cases h with
    | nil => rfl
    | cons q ht => simp at hk
  | cons p rest ih =>
    intro h hk hnd hl
    cases h with
    | nil => simp at hk
    | cons q ht =>
      simp only [keysOf_cons, List.cons.injEq] at hk
      have hpq : p.2 = q.2 := by
        have := hl p.1
        rw [lookupDev_cons, lookupDev_cons, if_pos rfl, if_pos hk.1.symm] at this
        exact Option.some.inj this
      have hhead : p = q := Prod.ext hk.1 hpq
      have hrest : rest = ht := by
        apply ih ht hk.2 (List.Nodup.of_cons hnd)
        intro a
        by_cases ha : a = p.1
        · rw [ha]
          have h1 : lookupDev rest p.1 = none := by
            rw [lookupDev_eq_none]
            exact (List.nodup_cons.mp hnd).1
          have h2 : lookupDev ht p.1 = none := by
            rw [lookupDev_eq_none, ← hk.2]
            exact (List.nodup_cons.mp hnd).1
          rw [h1, h2]
        · have := hl a
          rw [lookupDev_cons, lookupDev_cons, if_neg (fun hc => ha hc.symm),
            if_neg (fun hc => ha (hk.1 ▸ hc).symm)] at this
          exact this
      rw [hhead, hrest]

/-! ## Lemmas about the selection loop of gpuClaimPlugin.Claim -/

namespace gpuPlugin

theorem claimLoop_stop (requested : Int) (g : GpuState) (k : Nat)
    (h : (k : Int) = requested) : claimLoop requested g k = ([], g) := by
  cases g with
  | nil => simp [claimLoop]
  | cons p rest => obtain ⟨a, st⟩ := p; simp [claimLoop, h]

theorem claimLoop_cons_free (requested : Int) (a : Address) (rest : GpuState) (k : Nat)
    (hk : (k : Int) ≠ requested) :
    claimLoop requested ((a, true) :: rest) k =
      (a :: (claimLoop requested rest (k + 1)).1,
       (a, false) :: (claimLoop requested rest (k + 1)).2) := by
  simp only [claimLoop, if_neg hk]
  simp [ClaimStatusFree, ClaimStatusClaimed]

theorem claimLoop_cons_claimed (requested : Int) (a : Address) (rest : GpuState) (k : Nat)
    (hk : (k : Int) ≠ requested) :
    claimLoop requested ((a, false) :: rest) k =
      ((claimLoop requested rest k).1, (a, false) :: (claimLoop requested rest k).2) := by
  simp only [claimLoop, if_neg hk, if_neg (by decide : ¬(false = ClaimStatusFree))]

theorem claimLoop_keys (requested : Int) : ∀ (g : GpuState) (k : Nat),
    keysOf (claimLoop requested g k).2 = keysOf g := by
  intro g
  induction g with
  | nil => intro k; simp [claimLoop]
  | cons p rest ih =>
    intro k
    obtain ⟨a, st⟩ := p
    by_cases hk : (k : Int) = requested
    · rw [claimLoop_stop requested _ k hk]
    · cases st with
      | true => rw [claimLoop_cons_free requested a rest k hk]; simp [ih]
      | false => rw [claimLoop_cons_claimed requested a rest k hk]; simp [ih]

theorem claimLoop_lookup (requested : Int) : ∀ (g : GpuState) (k : Nat) (b : Address),
    lookupDev (claimLoop requested g k).2 b =
      if b ∈ (claimLoop requested g k).1 then some ClaimStatusClaimed else lookupDev g b := by
  intro g
  induction g with
  | nil => intro k b; simp [claimLoop]
  | cons p rest ih =>
    intro k b
    obtain ⟨a, st⟩ := p
    by_cases hk : (k : Int) = requested
    · rw [claimLoop_stop requested _ k hk]; simp
    · cases st with
      | true =>
        rw [claimLoop_cons_free requested a rest k hk]
        by_cases hab : a = b
        · rw [hab]
          simp [lookupDev_cons, ih]
        · have hba : ¬ b = a := fun hc => hab hc.symm
          simp only [lookupDev_cons, List.mem_cons, if_neg hab, ih, hba, false_or]
      | false =>
        rw [claimLoop_cons_claimed requested a rest k hk]
        by_cases hab : a = b
        · rw [hab]
          simp only [lookupDev_cons, if_pos rfl, claimStatusClaimed_eq]
          by_cases hb : b ∈ (claimLoop requested rest k).1
          · simp [hb]
          · simp [hb]
        · simp only [lookupDev_cons, if_neg hab, ih]

theorem claimLoop_sel_sub (requested : Int) : ∀ (g : GpuState) (k : Nat) (b : Address),
    b ∈ (claimLoop requested g k).1 → b ∈ keysOf g := by
  intro g
  induction g with
  | nil => intro k b hb; simp [claimLoop] at hb
  | cons p rest ih =>
    intro k b hb
    obtain ⟨a, st⟩ := p
    by_cases hk : (k : Int) = requested
    · rw [claimLoop_stop requested _ k hk] at hb; simp at hb
    · cases st with
      | true =>
        rw [claimLoop_cons_free requested a rest k hk] at hb
        rcases List.mem_cons.mp hb with h | h
        · simp [h]
        · exact List.mem_cons_of_mem _ (ih (k + 1) b h)
      | false =>
        rw [claimLoop_cons_claimed requested a rest k hk] at hb
        exact List.mem_cons_of_mem _ (ih k b hb)

theorem claimLoop_sel_free (requested : Int) : ∀ (g : GpuState) (k : Nat),
    (keysOf g).Nodup → ∀ b ∈ (claimLoop requested g k).1, lookupDev g b = some ClaimStatusFree := by
  intro g
  induction g with
  | nil => intro k _ b hb; simp [claimLoop] at hb
  | cons p rest ih =>
    intro k hnd b hb
    obtain ⟨a, st⟩ := p
    by_cases hk : (k : Int) = requested
    · rw [claimLoop_stop requested _ k hk] at hb; simp at hb
    · cases st with
      | true =>
        rw [claimLoop_cons_free requested a rest k hk] at hb
        rcases List.mem_cons.mp hb with h | h
        · rw [h, lookupDev_cons, if_pos rfl]
          rfl
        · have hbk : b ∈ keysOf rest := claimLoop_sel_sub requested rest (k + 1) b h
          have hab : ¬ a = b := by
            intro hc
            exact (List.nodup_cons.mp hnd).1 (hc ▸ hbk)
          rw [lookupDev_cons, if_neg hab]
          exact ih (k + 1) (List.Nodup.of_cons hnd) b h
      | false =>
        rw [claimLoop_cons_claimed requested a rest k hk] at hb
        have hbk : b ∈ keysOf rest := claimLoop_sel_sub requested rest k b hb
        have hab : ¬ a = b := by
          intro hc
          exact (List.nodup_cons.mp hnd).1 (hc ▸ hbk)
        rw [lookupDev_cons, if_neg hab]
        exact ih k (List.Nodup.of_cons hnd) b hb

theorem claimLoop_sel_nodup (requested : Int) : ∀ (g : GpuState) (k : Nat),
    (keysOf g).Nodup → (claimLoop requested g k).1.Nodup := by
  intro g
  induction g with
  | nil => intro k _; simp [claimLoop]
  | cons p rest ih =>
    intro k hnd
    obtain ⟨a, st⟩ := p
    by_cases hk : (k : Int) = requested
    · rw [claimLoop_stop requested _ k hk]; simp
    · cases st with
      | true =>
        rw [claimLoop_cons_free requested a rest k hk]
        refine List.nodup_cons.mpr ⟨?_, ih (k + 1) (List.Nodup.of_cons hnd)⟩
        intro ha
        exact (List.nodup_cons.mp hnd).1 (claimLoop_sel_sub requested rest (k + 1) a ha)
      | false =>
        rw [claimLoop_cons_claimed requested a rest k hk]
        exact ih k (List.Nodup.of_cons hnd)

theorem claimLoop_free (requested : Int) : ∀ (g : GpuState) (k : Nat),
    freeCount (claimLoop requested g k).2 + (claimLoop requested g k).1.length = freeCount g := by
  intro g
  induction g with
  | nil => intro k; simp [claimLoop]
  | cons p rest ih =>
    intro k
    obtain ⟨a, st⟩ := p
    by_cases hk : (k : Int) = requested
    · rw [claimLoop_stop requested _ k hk]; simp
    · cases st with
      | true =>
        rw [claimLoop_cons_free requested a rest k hk]
        have := ih (k + 1)
        simp only [freeCount_cons_true, freeCount_cons_false, List.length_cons]
        omega
      | false =>
        rw [claimLoop_cons_claimed requested a rest k hk]
        have := ih k
        simp only [freeCount_cons_false]
        omega

theorem claimLoop_len (requested : Int) : ∀ (g : GpuState) (k : Nat), (k : Int) ≤ requested →
    ((claimLoop requested g k).1.length : Int) = min (requested - k) (freeCount g) := by
  intro g
  induction g with
  | nil =>
    intro k hk
    simp [claimLoop]
    omega
  | cons p rest ih =>
    intro k hk
    obtain ⟨a, st⟩ := p
    by_cases hkr : (k : Int) = requested
    · rw [claimLoop_stop requested _ k hkr]
      simp
      omega
    · cases st with
      | true =>
        rw [claimLoop_cons_free requested a rest k hkr]
        have hk1 : ((k + 1 : Nat) : Int) ≤ requested := by
          push_cast
          omega
        have := ih (k + 1) hk1
        simp only [freeCount_cons_true, List.length_cons]
        push_cast at this ⊢
        omega
      | false =>
        rw [claimLoop_cons_claimed requested a rest k hkr]
        have := ih k hk
        simp only [freeCount_cons_false]
        omega

theorem claimLoop_neg (requested : Int) (hneg : requested < 0) : ∀ (g : GpuState) (k : Nat),
    claimLoop requested g k =
      ((g.filter (fun p => p.2 == ClaimStatusFree)).map Prod.fst,
       g.map (fun p => (p.1, ClaimStatusClaimed))) := by
  intro g
  induction g with
  | nil => intro k; simp [claimLoop]
  | cons p rest ih =>
    intro k
    obtain ⟨a, st⟩ := p
    have hk : (k : Int) ≠ requested := by omega
    cases st with
    | true =>
      rw [claimLoop_cons_free requested a rest k hk, ih (k + 1)]
      simp [ClaimStatusClaimed]
    | false =>
      rw [claimLoop_cons_claimed requested a rest k hk, ih k]
      simp [ClaimStatusClaimed]

/-! ## Lemmas about gpuClaimPlugin.Release -/

theorem map_id_of_no_key (a : Address) (f : Address × ClaimStatus → Address × ClaimStatus) :
    ∀ (g : GpuState), a ∉ keysOf g →
      g.map (fun p => if p.1 = a then f p else p) = g := by
  intro g
  induction g with
  | nil => intro _; rfl
  | cons p rest ih =>
    intro h
    simp only [keysOf_cons, List.mem_cons, not_or] at h
    have hne : ¬ p.1 = a := fun hc => h.1 hc.symm
    simp only [List.map_cons, if_neg hne]
    rw [ih h.2]

theorem releaseAddr_eq_map (g : GpuState) (a : Address) :
    releaseAddr g a = g.map (fun p => if p.1 = a then (p.1, ClaimStatusFree) else p) := by
  unfold releaseAddr
  by_cases h : (lookupDev g a).isSome = true
  · rw [if_pos h]
  · rw [if_neg h]
    have hmem : a ∉ keysOf g := fun hc => h ((lookupDev_isSome g a).mpr hc)
    exact (map_id_of_no_key a _ g hmem).symm

/-- The whole release loop, as one pointwise map over the device list. -/
theorem releaseFold_eq_map (addrs : List Address) : ∀ (g : GpuState),
    addrs.foldl releaseAddr g =
      g.map (fun p => if p.1 ∈ addrs then (p.1, ClaimStatusFree) else p) := by
  induction addrs with
  | nil =>
    intro g
    simp only [List.foldl_nil, List.not_mem_nil, if_neg (fun h => h)]
    simp
  | cons a rest ih =>
    intro g
    rw [List.foldl_cons, ih (releaseAddr g a), releaseAddr_eq_map, List.map_map]
    congr 1
    funext p
    by_cases h : p.1 = a
    · simp [Function.comp, h]
    · by_cases h2 : p.1 ∈ rest
      · simp [Function.comp, h, h2]
      · simp [Function.comp, h, h2]

theorem releaseFold_keys (addrs : List Address) (g : GpuState) :
    keysOf (addrs.foldl releaseAddr g) = keysOf g := by
  rw [releaseFold_eq_map]
  unfold keysOf
  rw [List.map_map]
  apply List.map_congr_left
  intro p _
  by_cases h : p.1 ∈ addrs
  · simp [Function.comp, h]
  · simp [Function.comp, h]

theorem releaseFold_lookup (addrs : List Address) : ∀ (g : GpuState) (b : Address),
    lookupDev (addrs.foldl releaseAddr g) b =
      if b ∈ addrs ∧ (lookupDev g b).isSome then some ClaimStatusFree else lookupDev g b := by
  intro g
  rw [releaseFold_eq_map]
  induction g with
  | nil => intro b; simp
  | cons p rest ih =>
    intro b
    simp only [List.map_cons]
    by_cases hpb : p.1 = b
    · by_cases hmem : p.1 ∈ addrs
      · rw [if_pos hmem]
        rw [lookupDev_cons, lookupDev_cons]
        simp only [if_pos hpb]
        rw [if_pos ⟨hpb ▸ hmem, by simp⟩]
      · rw [if_neg hmem]
        rw [lookupDev_cons, lookupDev_cons]
        simp only [if_pos hpb]
        rw [if_neg (fun hc => hmem (hpb ▸ hc.1))]
    · by_cases hmem : p.1 ∈ addrs
      · rw [if_pos hmem, lookupDev_cons, lookupDev_cons]
        simp only [if_neg hpb]
        exact ih b
      · rw [if_neg hmem, lookupDev_cons, lookupDev_cons]
        simp only [if_neg hpb]
        exact ih b

/-! ## Lemmas about gpuClaimPlugin.Init -/

theorem mapSet_keys (g : GpuState) (a : Address) (s : ClaimStatus) :
    keysOf (mapSet g a s) = if a ∈ keysOf g then keysOf g else keysOf g ++ [a] := by
  unfold mapSet
  by_cases h : (lookupDev g a).isSome = true
  · rw [if_pos h, if_pos ((lookupDev_isSome g a).mp h)]
    unfold keysOf
    rw [List.map_map]
    apply List.map_congr_left
    intro p _
    by_cases hp : p.1 = a
    · simp [Function.comp, hp]
    · simp [Function.comp, hp]
  · rw [if_neg h, if_neg (fun hc => h ((lookupDev_isSome g a).mpr hc))]
    simp [keysOf]

theorem mapSet_nodup (g : GpuState) (a : Address) (s : ClaimStatus)
    (h : (keysOf g).Nodup) : (keysOf (mapSet g a s)).Nodup := by
  rw [mapSet_keys]
  by_cases hm : a ∈ keysOf g
  · rw [if_pos hm]; exact h
  · rw [if_neg hm]
    simp [List.nodup_append, h, hm]

theorem foldl_preserve {β : Type} (P : GpuState → Prop) (f : GpuState → β → GpuState)
    (hf : ∀ g b, P g → P (f g b)) : ∀ (l : List β) (g : GpuState), P g → P (l.foldl f g) := by
  intro l
  induction l with
  | nil => intro g hg; exact hg
  | cons b rest ih =>
    intro g hg
    exact ih (f g b) (hf g b hg)

theorem Init_keys_nodup (discovered preClaimed : List Address) :
    (keysOf (Init discovered preClaimed)).Nodup := by
  unfold Init
  apply foldl_preserve (fun g => (keysOf g).Nodup)
  · intro g a hg
    by_cases h : (lookupDev g a).isSome = true
    · rw [if_pos h]; exact mapSet_nodup g a ClaimStatusClaimed hg
    · rw [if_neg h]; exact hg
  · apply foldl_preserve (fun g => (keysOf g).Nodup)
    · intro g a hg
      exact mapSet_nodup g a ClaimStatusFree hg
    · simp

theorem canClaim_true_of_le (g : GpuState) (q : Int)
    (h : q ≤ (freeCount g : Int)) : canClaim g q = true := by
  simp only [canClaim, decide_eq_true_eq]
  exact h

theorem Claim_eq_ok (g : GpuState) (q : Int) (h : canClaim g q = true) :
    Claim g q = .ok (.gpu (claimLoop q g 0).1, (claimLoop q g 0).2) := by
  simp [Claim, h]

end gpuPlugin

/-! ## C3: gpuClaimPlugin.Claim functional correctness -/

/-- C3: after Init with at least `q` free devices, `Claim q` for a
non-negative `q` selects exactly `q` devices that were Free, no device
twice, marks each selected device Claimed leaving everything else (keys
included) unchanged, returns a claim wrapping exactly the selected
addresses, and the free-device count (hence the `CanClaim` observation)
decreases by exactly `q`. -/
theorem gpu_claim_C3 (discovered preClaimed : List Address) (q : Int)
    (hq : 0 ≤ q) (hfree : q ≤ (freeCount (gpuPlugin.Init discovered preClaimed) : Int)) :
    ∃ sel g',
      gpuPlugin.Claim (gpuPlugin.Init discovered preClaimed) q = .ok (.gpu sel, g') ∧
      (sel.length : Int) = q ∧
      sel.Nodup ∧
      (∀ a ∈ sel, lookupDev (gpuPlugin.Init discovered preClaimed) a = some ClaimStatusFree) ∧
      (∀ a, lookupDev g' a =
        if a ∈ sel then some ClaimStatusClaimed
        else lookupDev (gpuPlugin.Init discovered preClaimed) a) ∧
      keysOf g' = keysOf (gpuPlugin.Init discovered preClaimed) ∧
      (freeCount g' : Int) + q = (freeCount (gpuPlugin.Init discovered preClaimed) : Int) ∧
      (∀ m : Int, gpuPlugin.canClaim g' m =
        decide (m + q ≤ (freeCount (gpuPlugin.Init discovered preClaimed) : Int))) := by
  set g0 := gpuPlugin.Init discovered preClaimed with hg0
  have hcan : gpuPlugin.canClaim g0 q = true := gpuPlugin.canClaim_true_of_le g0 q hfree
  have hlen : (((gpuPlugin.claimLoop q g0 0).1.length : Nat) : Int) = q := by
    have h2 := gpuPlugin.claimLoop_len q g0 0 (by exact_mod_cast hq)
    rw [h2, Nat.cast_zero, sub_zero]
    exact min_eq_left hfree
  refine ⟨(gpuPlugin.claimLoop q g0 0).1, (gpuPlugin.claimLoop q g0 0).2,
    gpuPlugin.Claim_eq_ok g0 q hcan, hlen, ?_, ?_, ?_, ?_, ?_, ?_⟩
  · exact gpuPlugin.claimLoop_sel_nodup q g0 0 (hg0 ▸ gpuPlugin.Init_keys_nodup discovered preClaimed)
  · exact gpuPlugin.claimLoop_sel_free q g0 0 (hg0 ▸ gpuPlugin.Init_keys_nodup discovered preClaimed)
  · exact gpuPlugin.claimLoop_lookup q g0 0
  · exact gpuPlugin.claimLoop_keys q g0 0
  · have h1 := gpuPlugin.claimLoop_free q g0 0
    omega
  · intro m
    have h1 := gpuPlugin.claimLoop_free q g0 0
    simp only [gpuPlugin.canClaim]
    apply decide_eq_decide.mpr
    omega

/-- Witness for C3 at two discovered devices and quantity one. -/
theorem gpu_claim_C3_witness :
    (0 : Int) ≤ 1 ∧
    (1 : Int) ≤ (freeCount (gpuPlugin.Init [⟨0,0,0,0⟩, ⟨0,0,1,0⟩] []) : Int) ∧
    ∃ sel g',
      gpuPlugin.Claim (gpuPlugin.Init [⟨0,0,0,0⟩, ⟨0,0,1,0⟩] []) 1 = .ok (.gpu sel, g') ∧
      (sel.length : Int) = 1 := by
  refine ⟨by decide, by decide, ?_⟩
  obtain ⟨sel, g', h1, h2, _⟩ :=
    gpu_claim_C3 [⟨0,0,0,0⟩, ⟨0,0,1,0⟩] [] 1 (by decide) (by decide)
  exact ⟨sel, g', h1, h2⟩

/-! ## C8: a zero-quantity claim succeeds and changes nothing -/

/-- C8: after Init, a Claim of quantity zero succeeds, returns a claim
referencing zero devices, and leaves every device status unchanged (the
device map is returned as it was). -/
theorem gpu_zero_claim_C8 (discovered preClaimed : List Address) :
    gpuPlugin.Claim (gpuPlugin.Init discovered preClaimed) 0 =
      .ok (.gpu [], gpuPlugin.Init discovered preClaimed) := by
  have hcan : gpuPlugin.canClaim (gpuPlugin.Init discovered preClaimed) 0 = true := by
    apply gpuPlugin.canClaim_true_of_le
    exact_mod_cast Nat.zero_le _
  rw [gpuPlugin.Claim_eq_ok _ 0 hcan,
    gpuPlugin.claimLoop_stop 0 _ 0 (by norm_num)]

/-! ## C9: a negative quantity claims every free device -/

/-- C9: for a negative requested value, `canClaim` is true (free ≥ negative)
and `Claim` succeeds, marking every currently-Free device Claimed and
returning a claim containing exactly the free devices, because the selection
loop's stop condition `len(selected) == requested` is never met. -/
theorem gpu_negative_claim_C9 (g : GpuState) (q : Int) (hq : q < 0) :
    gpuPlugin.canClaim g q = true ∧
    gpuPlugin.Claim g q =
      .ok (.gpu ((g.filter (fun p => p.2 == ClaimStatusFree)).map Prod.fst),
           g.map (fun p => (p.1, ClaimStatusClaimed))) := by
  have hcan : gpuPlugin.canClaim g q = true := by
    apply gpuPlugin.canClaim_true_of_le
    have : (0 : Int) ≤ (freeCount g : Int) := by exact_mod_cast Nat.zero_le _
    omega
  refine ⟨hcan, ?_⟩
  rw [gpuPlugin.Claim_eq_ok g q hcan, gpuPlugin.claimLoop_neg q hq g 0]

/-- Witness for C9 at one free device and quantity minus one. -/
theorem gpu_negative_claim_C9_witness :
    (-1 : Int) < 0 ∧
    gpuPlugin.canClaim [((⟨0,0,0,0⟩ : Address), true)] (-1) = true ∧
    gpuPlugin.Claim [((⟨0,0,0,0⟩ : Address), true)] (-1) =
      .ok (.gpu (([((⟨0,0,0,0⟩ : Address), true)].filter
            (fun p => p.2 == ClaimStatusFree)).map Prod.fst),
           [((⟨0,0,0,0⟩ : Address), true)].map (fun p => (p.1, ClaimStatusClaimed))) :=
  ⟨by decide, gpu_negative_claim_C9 [((⟨0,0,0,0⟩ : Address), true)] (-1) (by decide)⟩

/-! ## C6: Claim then Release round-trip -/

/-- C6: after Init, for any `q` not exceeding the free-device count,
`Claim q` followed by `Release` of the returned claim restores every
affected device to Free and yields the device map exactly as it was before
the Claim, so a subsequent `Claim q` on the same plugin succeeds. -/
theorem gpu_roundtrip_C6 (discovered preClaimed : List Address) (q : Int)
    (_hq : 0 ≤ q) (hfree : q ≤ (freeCount (gpuPlugin.Init discovered preClaimed) : Int)) :
    ∃ sel g',
      gpuPlugin.Claim (gpuPlugin.Init discovered preClaimed) q = .ok (.gpu sel, g') ∧
      gpuPlugin.Release g' (.gpu sel) = .ok (gpuPlugin.Init discovered preClaimed) ∧
      (∀ a ∈ sel, lookupDev (gpuPlugin.Init discovered preClaimed) a = some ClaimStatusFree) ∧
      ∃ rcg, gpuPlugin.Claim (gpuPlugin.Init discovered preClaimed) q = Except.ok rcg := by
  set g0 := gpuPlugin.Init discovered preClaimed with hg0
  have hnd : (keysOf g0).Nodup := hg0 ▸ gpuPlugin.Init_keys_nodup discovered preClaimed
  have hcan : gpuPlugin.canClaim g0 q = true := gpuPlugin.canClaim_true_of_le g0 q hfree
  set sel := (gpuPlugin.claimLoop q g0 0).1 with hsel
  set g' := (gpuPlugin.claimLoop q g0 0).2 with hgp
  have hclaim : gpuPlugin.Claim g0 q = .ok (.gpu sel, g') := gpuPlugin.Claim_eq_ok g0 q hcan
  have hfold : sel.foldl gpuPlugin.releaseAddr g' = g0 := by
    apply gpuState_ext
    · rw [gpuPlugin.releaseFold_keys, hgp, gpuPlugin.claimLoop_keys]
    · rw [gpuPlugin.releaseFold_keys, hgp, gpuPlugin.claimLoop_keys]
      exact hnd
    · intro a
      rw [gpuPlugin.releaseFold_lookup]
      by_cases ha : a ∈ sel
      · have hfreea : lookupDev g0 a = some ClaimStatusFree :=
          gpuPlugin.claimLoop_sel_free q g0 0 hnd a ha
        have hclaimed : lookupDev g' a = some ClaimStatusClaimed := by
          rw [hgp, gpuPlugin.claimLoop_lookup, if_pos ha]
        rw [if_pos ⟨ha, by rw [hclaimed]; rfl⟩, hfreea]
      · have hsame : lookupDev g' a = lookupDev g0 a := by
          rw [hgp, gpuPlugin.claimLoop_lookup, if_neg ha]
        rw [if_neg (fun hc => ha hc.1), hsame]
  refine ⟨sel, g', hclaim, ?_, gpuPlugin.claimLoop_sel_free q g0 0 hnd, ⟨_, hclaim⟩⟩
  show Except.ok (sel.foldl gpuPlugin.releaseAddr g') = Except.ok g0
  rw [hfold]

/-- Witness for C6 at two discovered devices and quantity two. -/
theorem gpu_roundtrip_C6_witness :
    (0 : Int) ≤ 2 ∧
    (2 : Int) ≤ (freeCount (gpuPlugin.Init [⟨0,0,0,0⟩, ⟨0,0,1,0⟩] []) : Int) ∧
    ∃ sel g',
      gpuPlugin.Claim (gpuPlugin.Init [⟨0,0,0,0⟩, ⟨0,0,1,0⟩] []) 2 = .ok (.gpu sel, g') ∧
      gpuPlugin.Release g' (.gpu sel) = .ok (gpuPlugin.Init [⟨0,0,0,0⟩, ⟨0,0,1,0⟩] []) := by
  refine ⟨by decide, by decide, ?_⟩
  obtain ⟨sel, g', h1, h2, _⟩ :=
    gpu_roundtrip_C6 [⟨0,0,0,0⟩, ⟨0,0,1,0⟩] [] 2 (by decide) (by decide)
  exact ⟨sel, g', h1, h2⟩

/-! ## C7: Release error condition, skipping and idempotence -/

/-- C7: `Release` fails with `InvalidResourceClaim` exactly when the claim
does not satisfy the plugin's claim capability; otherwise untracked
addresses are skipped without error, tracked listed addresses are set Free,
and releasing the same claim again succeeds without changing the state
further. -/
theorem gpu_release_C7 (g : GpuState) (rc : ResourceClaim) :
    (gpuPlugin.Release g rc = .error ClaimError.invalidResourceClaim ↔
      rc = ResourceClaim.invalid) ∧
    (∀ addrs, rc = ResourceClaim.gpu addrs →
      ∃ g', gpuPlugin.Release g rc = .ok g' ∧
        keysOf g' = keysOf g ∧
        (∀ a, lookupDev g' a =
          if a ∈ addrs ∧ (lookupDev g a).isSome then some ClaimStatusFree
          else lookupDev g a) ∧
        gpuPlugin.Release g' rc = .ok g') := by
  constructor
  · cases rc with
    | gpu addrs => simp [gpuPlugin.Release]
    | invalid => simp [gpuPlugin.Release]
  · intro addrs hrc
    subst hrc
    refine ⟨addrs.foldl gpuPlugin.releaseAddr g, rfl, gpuPlugin.releaseFold_keys addrs g,
      gpuPlugin.releaseFold_lookup addrs g, ?_⟩
    show Except.ok (addrs.foldl gpuPlugin.releaseAddr (addrs.foldl gpuPlugin.releaseAddr g)) = _
    have hidem : addrs.foldl gpuPlugin.releaseAddr (addrs.foldl gpuPlugin.releaseAddr g) =
        addrs.foldl gpuPlugin.releaseAddr g := by
      rw [gpuPlugin.releaseFold_eq_map, gpuPlugin.releaseFold_eq_map, List.map_map]
      congr 1
      funext p
      by_cases h : p.1 ∈ addrs
      · simp [Function.comp, h]
      · simp [Function.comp, h]
    rw [hidem]

/-- Witness for C7: releasing one claimed tracked device. -/
theorem gpu_release_C7_witness :
    ∃ g', gpuPlugin.Release [((⟨0,0,0,0⟩ : Address), false)]
        (ResourceClaim.gpu [⟨0,0,0,0⟩]) = .ok g' ∧
      keysOf g' = keysOf [((⟨0,0,0,0⟩ : Address), false)] ∧
      (∀ a, lookupDev g' a =
        if a ∈ [(⟨0,0,0,0⟩ : Address)] ∧
            (lookupDev [((⟨0,0,0,0⟩ : Address), false)] a).isSome then
          some ClaimStatusFree
        else lookupDev [((⟨0,0,0,0⟩ : Address), false)] a) ∧
      gpuPlugin.Release g' (ResourceClaim.gpu [⟨0,0,0,0⟩]) = .ok g' :=
  (gpu_release_C7 [((⟨0,0,0,0⟩ : Address), false)]
    (ResourceClaim.gpu [⟨0,0,0,0⟩])).2 [⟨0,0,0,0⟩] rfl

/-! ## C5: device-pool invariant over arbitrary operation sequences -/

theorem stepOp_preserve (keys0 : List Address) (hnd : keys0.Nodup)
    (s : GpuState × List (List Address)) (op : GpuOp) (hinv : poolInv keys0 s.1 s.2) :
    poolInv keys0 (stepOp s op).1 (stepOp s op).2 := by
  obtain ⟨hkeys, hpw, hnodup, hstatus⟩ := hinv
  have hndg : (keysOf s.1).Nodup := hkeys ▸ hnd
  cases op with
  | claimOp q =>
    by_cases hcan : gpuPlugin.canClaim s.1 q = true
    · have hok := gpuPlugin.Claim_eq_ok s.1 q hcan
      set sel := (gpuPlugin.claimLoop q s.1 0).1 with hsel
      set g' := (gpuPlugin.claimLoop q s.1 0).2 with hgp
      have hstep : stepOp s (.claimOp q) = (g', s.2 ++ [sel]) := by
        simp [stepOp, hok]
      rw [hstep]
      refine ⟨?_, ?_, ?_, ?_⟩
      · rw [hgp, gpuPlugin.claimLoop_keys]; exact hkeys
      · rw [List.pairwise_append]
        refine ⟨hpw, List.pairwise_singleton _ _, ?_⟩
        intro c hc d hd a hac
        rw [List.mem_singleton] at hd
        subst hd
        intro hasel
        have h1 : lookupDev s.1 a = some ClaimStatusClaimed := hstatus c hc a hac
        have h2 : lookupDev s.1 a = some ClaimStatusFree :=
          gpuPlugin.claimLoop_sel_free q s.1 0 hndg a hasel
        rw [h1] at h2
        exact absurd (Option.some.inj h2) (by decide)
      · intro c hc
        rcases List.mem_append.mp hc with h | h
        · exact hnodup c h
        · rw [List.mem_singleton] at h
          subst h
          exact gpuPlugin.claimLoop_sel_nodup q s.1 0 hndg
      · intro c hc a hac
        rw [hgp, gpuPlugin.claimLoop_lookup]
        rcases List.mem_append.mp hc with h | h
        · by_cases hasel : a ∈ sel
          · rw [if_pos hasel]
          · rw [if_neg hasel]
            exact hstatus c h a hac
        · rw [List.mem_singleton] at h
          subst h
          rw [if_pos hac]
    · have herr : stepOp s (.claimOp q) = s := by
        simp only [Bool.not_eq_true] at hcan
        simp [stepOp, gpuPlugin.Claim, hcan]
      rw [herr]
      exact ⟨hkeys, hpw, hnodup, hstatus⟩
  | releaseOp rc =>
    cases rc with
    | invalid =>
      have herr : stepOp s (.releaseOp .invalid) = s := by
        simp [stepOp, gpuPlugin.Release]
      rw [herr]
      exact ⟨hkeys, hpw, hnodup, hstatus⟩
    | gpu addrs =>
      have hstep : stepOp s (.releaseOp (.gpu addrs)) =
          (addrs.foldl gpuPlugin.releaseAddr s.1,
           s.2.map (fun c => c.filter (fun a => decide (a ∉ addrs)))) := by
        simp [stepOp, gpuPlugin.Release]
      rw [hstep]
      refine ⟨?_, ?_, ?_, ?_⟩
      · rw [gpuPlugin.releaseFold_keys]; exact hkeys
      · refine List.Pairwise.map _ ?_ hpw
        intro c d hcd a ha
        rw [List.mem_filter] at ha
        intro had
        rw [List.mem_filter] at had
        exact hcd a ha.1 had.1
      · intro c' hc'
        rw [List.mem_map] at hc'
        obtain ⟨c, hc, hfc⟩ := hc'
        rw [← hfc]
        exact List.Nodup.filter _ (hnodup c hc)
      · intro c' hc' a hac'
        rw [List.mem_map] at hc'
        obtain ⟨c, hc, hfc⟩ := hc'
        rw [← hfc] at hac'
        rw [List.mem_filter] at hac'
        have hnot : a ∉ addrs := of_decide_eq_true hac'.2
        rw [gpuPlugin.releaseFold_lookup, if_neg (fun hcon => hnot hcon.1)]
        exact hstatus c hc a hac'.1

theorem runOps_preserve (keys0 : List Address) (hnd : keys0.Nodup) :
    ∀ (ops : List GpuOp) (s : GpuState × List (List Address)),
      poolInv keys0 s.1 s.2 → poolInv keys0 (runOps s ops).1 (runOps s ops).2 := by
  intro ops
  induction ops with
  | nil => intro s h; exact h
  | cons op rest ih =>
    intro s h
    exact ih (stepOp s op) (stepOp_preserve keys0 hnd s op h)

/-- C5: starting from any Init state, every sequence of Claim and Release
operations preserves the key set of the device map (only statuses change),
keeps the number of Claimed entries at most the number of discovered
devices, and hands no device to two outstanding claims at once: the
outstanding claims are pairwise disjoint, duplicate-free, and all their
addresses are Claimed. -/
theorem gpu_invariant_C5 (discovered preClaimed : List Address) (ops : List GpuOp) :
    keysOf (runOps (gpuPlugin.Init discovered preClaimed, []) ops).1 =
      keysOf (gpuPlugin.Init discovered preClaimed) ∧
    claimedCount (runOps (gpuPlugin.Init discovered preClaimed, []) ops).1 ≤
      (gpuPlugin.Init discovered preClaimed).length ∧
    List.Pairwise (fun c d => ∀ a ∈ c, a ∉ d)
      (runOps (gpuPlugin.Init discovered preClaimed, []) ops).2 ∧
    (∀ c ∈ (runOps (gpuPlugin.Init discovered preClaimed, []) ops).2,
      c.Nodup ∧
      ∀ a ∈ c, lookupDev (runOps (gpuPlugin.Init discovered preClaimed, []) ops).1 a =
        some ClaimStatusClaimed) := by
  set g0 := gpuPlugin.Init discovered preClaimed with hg0
  have hinv0 : poolInv (keysOf g0) g0 [] := by
    refine ⟨rfl, List.Pairwise.nil, ?_, ?_⟩
    · intro c hc; simp at hc
    · intro c hc; simp at hc
  have hinv := runOps_preserve (keysOf g0)
    (hg0 ▸ gpuPlugin.Init_keys_nodup discovered preClaimed) ops (g0, []) hinv0
  obtain ⟨hkeys, hpw, hnodup, hstatus⟩ := hinv
  refine ⟨hkeys, ?_, hpw, fun c hc => ⟨hnodup c hc, hstatus c hc⟩⟩
  have hlen : (runOps (g0, []) ops).1.length = g0.length := by
    have h1 : (keysOf (runOps (g0, []) ops).1).length = (keysOf g0).length := by
      rw [hkeys]
    simpa [keysOf] using h1
  calc claimedCount (runOps (g0, []) ops).1
      ≤ (runOps (g0, []) ops).1.length := List.countP_le_length _
    _ = g0.length := hlen

/-! ## Lemmas about the claimer's claim loop -/

theorem claimPhase2_cons_err {ν σ ρ ε : Type} [DecidableEq ν] (plugins : ν → Plugin σ ρ ε)
    (name : ν) (qty : Int) (rest : List (ν × Int)) (states : ν → σ) (acc : List (ν × ρ))
    (e : ε) (h : (plugins name).claim (states name) qty = .error e) :
    claimPhase2 plugins ((name, qty) :: rest) states acc =
      ((none, some (.pluginError e)), (releaseAll plugins acc states).2) := by
  simp [claimPhase2, h]

theorem claimPhase2_cons_ok {ν σ ρ ε : Type} [DecidableEq ν] (plugins : ν → Plugin σ ρ ε)
    (name : ν) (qty : Int) (rest : List (ν × Int)) (states : ν → σ) (acc : List (ν × ρ))
    (rc : ρ) (s' : σ) (h : (plugins name).claim (states name) qty = .ok (rc, s')) :
    claimPhase2 plugins ((name, qty) :: rest) states acc =
      claimPhase2 plugins rest (updateState states name s') (acc ++ [(name, rc)]) := by
  simp [claimPhase2, h]

theorem claimPhase2_append_ok {ν σ ρ ε : Type} [DecidableEq ν] (plugins : ν → Plugin σ ρ ε)
    (l₂ : List (ν × Int)) :
    ∀ (l₁ : List (ν × Int)) (states : ν → σ) (acc accPre : List (ν × ρ)) (statesPre : ν → σ),
      claimPhase2 plugins l₁ states acc = ((some accPre, none), statesPre) →
      claimPhase2 plugins (l₁ ++ l₂) states acc = claimPhase2 plugins l₂ statesPre accPre := by
  intro l₁
  induction l₁ with
  | nil =>
    intro states acc accPre statesPre h
    simp only [claimPhase2, Prod.mk.injEq, Option.some.injEq] at h
    rw [List.nil_append, h.1.1, h.2]
  | cons r rest ih =>
    intro states acc accPre statesPre h
    obtain ⟨name, qty⟩ := r
    cases hcl : (plugins name).claim (states name) qty with
    | error e =>
      rw [claimPhase2_cons_err plugins name qty rest states acc e hcl] at h
      simp at h
    | ok v =>
      obtain ⟨rc, s'⟩ := v
      rw [claimPhase2_cons_ok plugins name qty rest states acc rc s' hcl] at h
      rw [List.cons_append,
        claimPhase2_cons_ok plugins name qty (rest ++ l₂) states acc rc s' hcl]
      exact ih _ _ accPre statesPre h

theorem claimPhase2_none_of_err {ν σ ρ ε : Type} [DecidableEq ν] (plugins : ν → Plugin σ ρ ε) :
    ∀ (l : List (ν × Int)) (states : ν → σ) (acc : List (ν × ρ)) (e : ClaimerError ν ε),
      (claimPhase2 plugins l states acc).1.2 = some e →
      (claimPhase2 plugins l states acc).1.1 = none := by
  intro l
  induction l with
  | nil =>
    intro states acc e h
    simp [claimPhase2] at h
  | cons r rest ih =>
    intro states acc e h
    obtain ⟨name, qty⟩ := r
    cases hcl : (plugins name).claim (states name) qty with
    | error e2 =>
      rw [claimPhase2_cons_err plugins name qty rest states acc e2 hcl]
    | ok v =>
      obtain ⟨rc, s'⟩ := v
      rw [claimPhase2_cons_ok plugins name qty rest states acc rc s' hcl] at h ⊢
      exact ih _ _ e h

theorem claimerClaim_allCan {ν σ ρ ε : Type} [DecidableEq ν] (plugins : ν → Plugin σ ρ ε)
    (states : ν → σ) (resources : List (ν × Int))
    (h : ∀ r ∈ resources, (plugins r.1).canClaim (states r.1) r.2 = true) :
    claimerClaim plugins states resources = claimPhase2 plugins resources states [] := by
  have hfil : resources.filter (fun r => !(plugins r.1).canClaim (states r.1) r.2) = [] := by
    rw [List.filter_eq_nil_iff]
    intro r hr
    simp [h r hr]
  simp only [claimerClaim, hfil]
  simp

/-! ## C1: rollback on a partial multi-resource claim failure -/

/-- C1: inside the claimer's loop, if a plugin's Claim errors after earlier
plugins in the request already returned claims, the claimer's result is the
triggering claim error with a nil Claims value, and the final plugin states
are exactly those after releasing every claim obtained so far (rollback
release failures never reach the returned error); moreover on every failure
path of `claimerClaim` the Claims value is nil. -/
theorem claimer_rollback_C1 {ν σ ρ ε : Type} [DecidableEq ν] (plugins : ν → Plugin σ ρ ε) :
    (∀ (states : ν → σ) (pre rest : List (ν × Int)) (name : ν) (qty : Int)
       (accPre : List (ν × ρ)) (statesPre : ν → σ) (e : ε),
      (∀ r ∈ pre ++ (name, qty) :: rest, (plugins r.1).canClaim (states r.1) r.2 = true) →
      claimPhase2 plugins pre states [] = ((some accPre, none), statesPre) →
      (plugins name).claim (statesPre name) qty = .error e →
      claimerClaim plugins states (pre ++ (name, qty) :: rest) =
        ((none, some (.pluginError e)), (releaseAll plugins accPre statesPre).2)) ∧
    (∀ (states : ν → σ) (resources : List (ν × Int)) (err : ClaimerError ν ε),
      (claimerClaim plugins states resources).1.2 = some err →
      (claimerClaim plugins states resources).1.1 = none) := by
  constructor
  · intro states pre rest name qty accPre statesPre e h1 h2 h3
    rw [claimerClaim_allCan plugins states _ h1,
      claimPhase2_append_ok plugins ((name, qty) :: rest) pre states [] accPre statesPre h2,
      claimPhase2_cons_err plugins name qty rest statesPre accPre e h3]
  · intro states resources err h
    by_cases hf :
        (resources.filter (fun r => !(plugins r.1).canClaim (states r.1) r.2)).length > 0
    · simp only [claimerClaim, if_pos hf]
    · simp only [claimerClaim, if_neg hf] at h ⊢
      exact claimPhase2_none_of_err plugins resources states [] err h

/-- A plugin whose Claim always succeeds (state counts successful claims). -/
def wOkPlugin : Plugin Nat Nat Nat :=
  { canClaim := fun _ _ => true
    claim := fun s _ => .ok (s, s + 1)
    release := fun s _ => .ok s }

/-- A plugin whose Claim always fails with error 7. -/
def wErrPlugin : Plugin Nat Nat Nat :=
  { canClaim := fun _ _ => true
    claim := fun _ _ => .error 7
    release := fun s _ => .ok s }

/-- A plugin that reports insufficient resources. -/
def wNoPlugin : Plugin Nat Nat Nat :=
  { canClaim := fun _ _ => false
    claim := fun _ _ => .error 9
    release := fun s _ => .ok s }

/-- Plugin assignment: resource 0 succeeds, every other resource errors. -/
def wPlugins : Nat → Plugin Nat Nat Nat := fun n => if n = 0 then wOkPlugin else wErrPlugin

/-- Plugin assignment: resource 0 has capacity, every other resource is short. -/
def wPlugins2 : Nat → Plugin Nat Nat Nat := fun n => if n = 0 then wOkPlugin else wNoPlugin

/-- Initial per-plugin states for the witnesses. -/
def wStates : Nat → Nat := fun _ => 0

/-- Witness for C1: plugin 0 claims, plugin 1 then errors; the result is the
triggering error, nil claims, and the state after rolling back plugin 0's
claim. -/
theorem claimer_rollback_C1_witness :
    claimerClaim wPlugins wStates [(0, 1), (1, 1)] =
      ((none, some (ClaimerError.pluginError 7)),
       (releaseAll wPlugins [(0, 0)] (updateState wStates 0 1)).2) :=
  (claimer_rollback_C1 wPlugins).1 wStates [(0, 1)] [] 1 1 [(0, 0)]
    (updateState wStates 0 1) 7 (by decide) rfl rfl

/-! ## C2: insufficient resources fail the whole request without mutation -/

/-- C2: when at least one named resource's plugin reports CanClaim false,
the claimer fails the whole request with InsufficientResources aggregating
exactly the resources that were short, returns nil claims, and leaves every
plugin's state untouched — including plugins that had sufficient supply. -/
theorem claimer_insufficient_C2 {ν σ ρ ε : Type} [DecidableEq ν] (plugins : ν → Plugin σ ρ ε)
    (states : ν → σ) (resources : List (ν × Int))
    (h : resources.filter (fun r => !(plugins r.1).canClaim (states r.1) r.2) ≠ []) :
    claimerClaim plugins states resources =
      ((none, some (ClaimerError.insufficientResources
        ((resources.filter (fun r => !(plugins r.1).canClaim (states r.1) r.2)).map
          Prod.fst))),
       states) := by
  simp only [claimerClaim]
  rw [if_pos (List.length_pos.mpr h)]

/-- Witness for C2: resource 0 has capacity, resource 1 is short; the whole
request fails naming exactly resource 1 and the states are unchanged. -/
theorem claimer_insufficient_C2_witness :
    ([((0 : Nat), (1 : Int)), (1, 5)].filter
      (fun r => !(wPlugins2 r.1).canClaim (wStates r.1) r.2) ≠ []) ∧
    claimerClaim wPlugins2 wStates [(0, 1), (1, 5)] =
      ((none, some (ClaimerError.insufficientResources [1])), wStates) :=
  ⟨by decide, claimer_insufficient_C2 wPlugins2 wStates [(0, 1), (1, 5)] (by decide)⟩

/-! ## C4: behaviour after shutdown -/

/-- C4: after the claimer shuts down, every request already queued for the
command loop is answered with the start context's cancellation error (with
nil claims for claim requests), and a new Claim or Release request (with
plugin coverage) observes NotStarted and is rejected instead of being
enqueued. -/
theorem claimer_shutdown_C4 {α β γ : Type} :
    (∀ (queued : List α) (x : Option γ × Option LifecycleError),
      x ∈ drainClaimQueue queued → x = (none, some LifecycleError.ctxCancelled)) ∧
    (∀ (queued : List β) (y : Option LifecycleError),
      y ∈ drainReleaseQueue queued → y = some LifecycleError.ctxCancelled) ∧
    (∀ l : ClaimerLife, l.shutdown = true →
      requestFrontEnd l true = FrontOutcome.rejected LifecycleError.notStarted) := by
  refine ⟨?_, ?_, ?_⟩
  · intro queued x hx
    simp only [drainClaimQueue, List.mem_map] at hx
    obtain ⟨_, _, hx⟩ := hx
    exact hx.symm
  · intro queued y hy
    simp only [drainReleaseQueue, List.mem_map] at hy
    obtain ⟨_, _, hy⟩ := hy
    exact hy.symm
  · intro l hl
    cases hs : l.started with
    | false => simp [requestFrontEnd, ensureRunning, hs]
    | true => simp [requestFrontEnd, ensureRunning, hs, hl]

/-- Witness for C4: one queued claim request is drained with the context
error, and a new request against a shut-down claimer is rejected with
NotStarted. -/
theorem claimer_shutdown_C4_witness :
    (((none, some LifecycleError.ctxCancelled) : Option Nat × Option LifecycleError) =
      (none, some LifecycleError.ctxCancelled)) ∧
    requestFrontEnd ⟨true, true⟩ true = FrontOutcome.rejected LifecycleError.notStarted :=
  ⟨(@claimer_shutdown_C4 Nat Nat Nat).1 [0] (none, some LifecycleError.ctxCancelled)
      (by simp [drainClaimQueue]),
   (@claimer_shutdown_C4 Nat Nat Nat).2.2 ⟨true, true⟩ rfl⟩

/-! ## C10: WaitUntilStarted after the started signal -/

/-- C10: once the started channel has fired, `WaitUntilStarted` can always
return nil, can never return NotStarted (in any lifecycle state, shutdown
included — the select never consults the shutdown channel), and with a live
caller context its only possible outcome is nil. -/
theorem claimer_wait_C10 (l : ClaimerLife) (ctxDone : Bool) (r : WaitOutcome)
    (hstart : l.started = true) :
    WaitUntilStartedRel l ctxDone WaitOutcome.ok ∧
    (WaitUntilStartedRel l ctxDone r → r ≠ WaitOutcome.notStartedErr) ∧
    (ctxDone = false → WaitUntilStartedRel l ctxDone r → r = WaitOutcome.ok) := by
  refine ⟨Or.inl ⟨hstart, rfl⟩, ?_, ?_⟩
  · intro h
    rcases h with ⟨_, hr⟩ | ⟨_, hr⟩
    · rw [hr]; intro hc; cases hc
    · rw [hr]; intro hc; cases hc
  · intro hdone h
    rcases h with ⟨_, hr⟩ | ⟨hc, _⟩
    · exact hr
    · rw [hdone] at hc; cases hc

/-- Witness for C10 at a started and already shut-down claimer with a live
caller context. -/
theorem claimer_wait_C10_witness :
    (⟨true, true⟩ : ClaimerLife).started = true ∧
    (WaitUntilStartedRel ⟨true, true⟩ false WaitOutcome.ok ∧
     (WaitUntilStartedRel ⟨true, true⟩ false WaitOutcome.ok →
       WaitOutcome.ok ≠ WaitOutcome.notStartedErr) ∧
     (false = false → WaitUntilStartedRel ⟨true, true⟩ false WaitOutcome.ok →
       WaitOutcome.ok = WaitOutcome.ok)) :=
  ⟨rfl, claimer_wait_C10 ⟨true, true⟩ false WaitOutcome.ok rfl⟩
